import Mathlib

/-!
Verification development for the fitness-pose-rep-counter repository.

The core under verification is the per-frame pipeline of
`usePoseDetection.ts` (`runLoop`, lines 165-254): geometry evaluation
(`calculateAngle`), the rolling-average smoother over the last
`ANGLE_HISTORY_SIZE = 5` raw angles, the debounced rep-counting state
machine, the per-frame form-check evaluation, and the session
save / reset logic (`saveSession`, `resetCounters`), together with the
static exercise profile table of `exercises.ts`.

Modelling conventions:
- JS numbers used for angles, thresholds and confidences are modelled
  as rationals (ℚ); all traces the theorems evaluate are exact in ℚ.
- The geometry evaluator (`calculateAngle`), which uses `Math.atan2`,
  is modelled over the reals with `Complex.arg` playing the role of
  `atan2 y x = arg (x + y i)`.
- The downstream per-frame pipeline is parameterised by the raw angle
  value produced by the geometry step (`FrameInput.rawAngle`), so that
  counting properties quantify over every possible angle signal.
- Form-check predicates are arbitrary boolean functions of the full
  landmark list, exactly as in the source, where they are closures over
  `NormalizedLandmark[]`.
- `localStorage` is modelled as an explicit list of sessions threaded
  through `saveSession`.
-/

namespace RepCounter

/-- A MediaPipe `NormalizedLandmark` as consumed by the hook: a 2-D
position plus an optional visibility confidence (the `visibility` field
may be absent, which the source handles with `a.visibility ?? 1`). -/
structure Joint where
  x : ℚ
  y : ℚ
  visibility : Option ℚ
deriving DecidableEq

/-- One form-check rule from `exercises.ts`: a predicate over the full
landmark list plus a violation message. -/
structure FormCheck where
  name : String
  condition : List Joint → Bool
  message : String

/-- The exercise keys of `exercises.ts`. -/
inductive ExerciseKey where
  | bicep
  | squat
  | pushup
  | shoulderpress
deriving DecidableEq

/-- The counting-relevant fields of an `ExerciseConfig` from
`exercises.ts`: the three landmark indices, the two thresholds, and the
debounce length. The `formChecks` list is passed separately where
needed (its predicates are closures, carried next to the config in the
source). -/
structure ExerciseConfig where
  landmarks : Nat × Nat × Nat
  upThreshold : ℚ
  downThreshold : ℚ
  holdFrames : Nat
deriving DecidableEq

/-- The `EXERCISES` table of `exercises.ts` (counting-relevant fields). -/
def EXERCISES : ExerciseKey → ExerciseConfig
  | .bicep => ⟨(11, 13, 15), 50, 150, 12⟩
  | .squat => ⟨(23, 25, 27), 100, 160, 15⟩
  | .pushup => ⟨(11, 13, 15), 90, 155, 12⟩
  | .shoulderpress => ⟨(11, 13, 15), 160, 90, 12⟩

/-- The `stage` values the machine assigns (`stageRef.current` is a
string, either "up" or "down", or `null`). -/
inductive Stage where
  | up
  | down
deriving DecidableEq

/-- The mutable per-frame counter state of the hook:
`stageRef`, `repsRef`, `holdCountRef`, `angleHistoryRef`. -/
structure CounterState where
  stage : Option Stage
  reps : Nat
  holdCount : Nat
  angleHistory : List ℚ
deriving DecidableEq

/-- Initial state: `stage = null`, `reps = 0`, `holdCount = 0`,
`angleHistory = []`. -/
def initialState : CounterState :=
  { stage := none, reps := 0, holdCount := 0, angleHistory := [] }

/-- `ANGLE_HISTORY_SIZE` from `usePoseDetection.ts`. -/
def ANGLE_HISTORY_SIZE : Nat := 5

/-- Lines 214-215: `history.push(rawAngle); if (history.length >
ANGLE_HISTORY_SIZE) history.shift();`. -/
def pushAngle (history : List ℚ) (rawAngle : ℚ) : List ℚ :=
  let h := history ++ [rawAngle]
  if ANGLE_HISTORY_SIZE < h.length then h.tail else h

/-- Line 216: `history.reduce((sum, v) => sum + v, 0) / history.length`.
On the empty list this is `0 / 0 = 0` in ℚ; in the source the buffer is
never empty at this point because a push just happened. -/
def smoothedOf (history : List ℚ) : ℚ :=
  history.foldl (· + ·) 0 / (history.length : ℚ)

/-- Lines 220-244: the debounced state machine, applied to the smoothed
angle. `history` is the already-updated angle buffer, written back in
every branch (the buffer was mutated before the machine ran). -/
def stepMachine (cfg : ExerciseConfig) (s : CounterState)
    (history : List ℚ) (smoothed : ℚ) : CounterState :=
  if cfg.downThreshold < smoothed then
    -- down branch: holdCount += 1; on reaching holdFrames, credit a
    -- rep only when the current stage is "up", then move to "down"
    if cfg.holdFrames ≤ s.holdCount + 1 then
      { stage := some Stage.down
        reps := if s.stage = some Stage.up then s.reps + 1 else s.reps
        holdCount := 0
        angleHistory := history }
    else
      { s with holdCount := s.holdCount + 1, angleHistory := history }
  else if smoothed < cfg.upThreshold then
    -- up branch: holdCount += 1; on reaching holdFrames, move to "up"
    if cfg.holdFrames ≤ s.holdCount + 1 then
      { s with stage := some Stage.up, holdCount := 0, angleHistory := history }
    else
      { s with holdCount := s.holdCount + 1, angleHistory := history }
  else
    -- dead zone: neither condition holds; drop accumulated credit
    { s with holdCount := 0, angleHistory := history }

/-- Lines 210-244: the visible-landmarks path — push the raw angle into
the rolling buffer, smooth, and run the state machine. -/
def processVisible (cfg : ExerciseConfig) (s : CounterState)
    (rawAngle : ℚ) : CounterState :=
  let history := pushAngle s.angleHistory rawAngle
  stepMachine cfg s history (smoothedOf history)

/-- The per-frame input to the counting pipeline: the three sampled
landmarks `lm[ai], lm[bi], lm[ci]` (each possibly absent) and the raw
angle the geometry step computes for this frame. -/
structure FrameInput where
  a : Option Joint
  b : Option Joint
  c : Option Joint
  rawAngle : ℚ
deriving DecidableEq

/-- Line 209: one conjunct of the visibility gate,
`a && (a.visibility ?? 1) > 0.5`. -/
def jointVisible : Option Joint → Bool
  | none => false
  | some j => decide ((1 : ℚ) / 2 < j.visibility.getD 1)

/-- Lines 209-248: one frame of the counting pipeline (landmarks were
detected). If all three sampled joints pass the visibility gate the
frame is smoothed and counted; otherwise only `holdCount` is reset. -/
def processFrame (cfg : ExerciseConfig) (s : CounterState)
    (f : FrameInput) : CounterState :=
  if jointVisible f.a && jointVisible f.b && jointVisible f.c then
    processVisible cfg s f.rawAngle
  else
    { s with holdCount := 0 }

/-- Folding the per-frame step over a sequence of frames. -/
def runFrames (cfg : ExerciseConfig) (s : CounterState)
    (fs : List FrameInput) : CounterState :=
  fs.foldl (processFrame cfg) s

/-- A frame whose three sampled joints are all fully visible and whose
geometry step yields the given raw angle. -/
def visFrame (angle : ℚ) : FrameInput :=
  { a := some ⟨0, 0, some 1⟩
    b := some ⟨0, 0, some 1⟩
    c := some ⟨0, 0, some 1⟩
    rawAngle := angle }

/-- Lines 197-205 of `usePoseDetection.ts`: walk the ordered rule list,
returning the first matching message; `currentAlert` stays the empty
string when no predicate fires. -/
def evalFormLoop (lm : List Joint) : List FormCheck → String
  | [] => ""
  | check :: rest => if check.condition lm then check.message else evalFormLoop lm rest

/-- Lines 197-206: the whole form-check block, guarded by
`if (cfg.formChecks)` — a profile without a rule list produces the
empty alert. -/
def evalFormChecks (checks : Option (List FormCheck)) (lm : List Joint) : String :=
  match checks with
  | none => ""
  | some cs => evalFormLoop lm cs

/-- Lines 189-248 of `runLoop` for a frame with detected landmarks: the
form alert is computed from the full landmark list before (and
regardless of) the three-joint visibility gate; the three sampled
joints are looked up by the profile landmark indices and fed to the
counting pipeline together with the raw angle of the geometry step. -/
def runLoopFrame (cfg : ExerciseConfig) (checks : Option (List FormCheck))
    (s : CounterState) (lm : List Joint) (rawAngle : ℚ) : CounterState × String :=
  let alert := evalFormChecks checks lm
  let f : FrameInput :=
    { a := lm[cfg.landmarks.1]?
      b := lm[cfg.landmarks.2.1]?
      c := lm[cfg.landmarks.2.2]?
      rawAngle := rawAngle }
  (processFrame cfg s f, alert)

/-- A stored workout session (`WorkoutSession` in
`usePoseDetection.ts`). -/
structure WorkoutSession where
  date : String
  exercise : ExerciseKey
  reps : Nat
deriving DecidableEq

/-- Lines 39-44, `saveSession`: a zero-rep session is dropped;
otherwise one record is appended to the stored list. The stored list
(`localStorage` under `workoutSessions`) is threaded explicitly. -/
def saveSession (sessions : List WorkoutSession) (date : String)
    (exercise : ExerciseKey) (reps : Nat) : List WorkoutSession :=
  if reps = 0 then sessions
  else sessions ++ [{ date := date, exercise := exercise, reps := reps }]

/-- Lines 271-283, `resetCounters` (invoked on explicit reset, and by
`handleExerciseChange` in `App.tsx` on every switch to a different
exercise): save the current session, then restore every counter ref to
its initial value. -/
def resetCounters (sessions : List WorkoutSession) (date : String)
    (exercise : ExerciseKey) (s : CounterState) :
    List WorkoutSession × CounterState :=
  (saveSession sessions date exercise s.reps, initialState)

/-- A 2-D point as consumed by `calculateAngle` (only the x and y
fields of a landmark are read there). -/
structure Pt where
  x : ℝ
  y : ℝ

/-- The two-argument arctangent: `Math.atan2 y x` is the argument of
the complex number `x + y i`, valued in `(-π, π]`. -/
noncomputable def atan2 (y x : ℝ) : ℝ := Complex.arg ⟨x, y⟩

/-- Lines 146-155, `calculateAngle`: the unsigned angle at `b` in
degrees, folded into `[0, 180]`. -/
noncomputable def calculateAngle (a b c : Pt) : ℝ :=
  let radians := atan2 (c.y - b.y) (c.x - b.x) - atan2 (a.y - b.y) (a.x - b.x)
  let ang := |radians * 180 / Real.pi|
  if 180 < ang then 360 - ang else ang

/-- The bicep profile, used by the concrete traces below. -/
def bicepCfg : ExerciseConfig := EXERCISES ExerciseKey.bicep

/-- The state after the first phase of the C2 trace: twelve fully
visible frames at angle 160 from the initial state. -/
def c2State1 : CounterState :=
  runFrames bicepCfg initialState (List.replicate 12 (visFrame 160))

/-- The state after the second phase: sixteen frames at angle 40 (the
first four average into the dead zone while the 160s drain from the
smoothing window). -/
def c2State2 : CounterState :=
  runFrames bicepCfg c2State1 (List.replicate 16 (visFrame 40))

/-- The state after the third phase: sixteen more frames at angle 160. -/
def c2State3 : CounterState :=
  runFrames bicepCfg c2State2 (List.replicate 16 (visFrame 160))

/-- The C5 prefix trace: eleven frames at 160, then one frame at 100. -/
def c5Frames : List FrameInput :=
  List.replicate 11 (visFrame 160) ++ [visFrame 100]

/-- The state after the C5 prefix trace. -/
def c5State : CounterState := runFrames bicepCfg initialState c5Frames

/-- The smoother buffer obtained by pushing a list of raw values, in
order, into an initially empty buffer. -/
def smootherBuffer (xs : List ℚ) : List ℚ := xs.foldl pushAngle []

/-- A form rule whose predicate never fires (used to instantiate the
form-evaluator theorem at a concrete input). -/
def ruleOff : FormCheck := ⟨"r1", fun _ => false, "m1"⟩

/-- A form rule whose predicate always fires. -/
def ruleHit : FormCheck := ⟨"r2", fun _ => true, "m2"⟩

/-- A second always-firing form rule, placed after `ruleHit` to show
that later matching rules are not reported. -/
def ruleLate : FormCheck := ⟨"r3", fun _ => true, "m3"⟩

/-- A mid-exercise counter state used by concrete witnesses. -/
def midState : CounterState :=
  { stage := some Stage.up, reps := 3, holdCount := 7, angleHistory := [100, 110] }

/-- A frame whose pivot joint carries confidence 0.3 (below the gate)
while the other two joints are fully visible. -/
def lowConfFrame : FrameInput :=
  { a := some ⟨0, 0, some 1⟩
    b := some ⟨0, 0, some (3 / 10)⟩
    c := some ⟨0, 0, some 1⟩
    rawAngle := 160 }

/-- A joint with no visibility value at all. -/
def noVisJoint : Joint := ⟨0, 0, none⟩

/-- A frame whose first sampled joint has no visibility value and
whose other two joints are fully visible. -/
def noVisFrame : FrameInput :=
  { a := some noVisJoint
    b := some ⟨0, 0, some 1⟩
    c := some ⟨0, 0, some 1⟩
    rawAngle := 160 }

/-- One frame can neither confirm a stage nor credit a rep while the
hold counter is still short of the debounce length: stage and rep count
are untouched and the hold counter grows by at most one. -/
theorem processFrame_of_hold_lt (cfg : ExerciseConfig) (s : CounterState)
    (f : FrameInput) (h : s.holdCount + 1 < cfg.holdFrames) :
    (processFrame cfg s f).stage = s.stage ∧ (processFrame cfg s f).reps = s.reps
    ∧ (processFrame cfg s f).holdCount ≤ s.holdCount + 1 := by
  have h2 : ¬ cfg.holdFrames ≤ s.holdCount + 1 := by omega
  simp only [processFrame, processVisible, stepMachine]
  split_ifs <;> simp_all

/-- Debounce necessity: starting with hold credit `holdCount`, fewer
than `holdFrames - holdCount` frames can never change the stage or the
rep count, whatever their angles and visibilities. -/
theorem runFrames_of_hold_lt (cfg : ExerciseConfig) (fs : List FrameInput) :
    ∀ s : CounterState, s.holdCount + fs.length < cfg.holdFrames →
      (runFrames cfg s fs).stage = s.stage ∧ (runFrames cfg s fs).reps = s.reps
      ∧ (runFrames cfg s fs).holdCount ≤ s.holdCount + fs.length := by
  induction fs with
  | nil =>
    intro s h
    simp [runFrames]
  | cons f fs ih =>
    intro s h
    have hlen : (f :: fs).length = fs.length + 1 := rfl
    have hstep := processFrame_of_hold_lt cfg s f (by omega)
    have hrec := ih (processFrame cfg s f) (by omega)
    have e : runFrames cfg s (f :: fs) = runFrames cfg (processFrame cfg s f) fs := rfl
    rw [e]
    refine ⟨hrec.1.trans hstep.1, hrec.2.1.trans hstep.2.1, ?_⟩
    have := hrec.2.2
    have := hstep.2.2
    omega

/-- Characterization of the rolling buffer: starting from any buffer of
length at most five, folding pushes leaves exactly the last five values
of buffer-then-inputs. -/
theorem foldl_pushAngle_drop (xs : List ℚ) :
    ∀ b : List ℚ, b.length ≤ 5 →
      xs.foldl pushAngle b = (b ++ xs).drop ((b ++ xs).length - 5) := by
  induction xs with
  | nil =>
    intro b hb
    simp [Nat.sub_eq_zero_of_le hb]
  | cons x xs ih =>
    intro b hb
    have hpush : List.foldl pushAngle b (x :: xs)
        = List.foldl pushAngle (pushAngle b x) xs := rfl
    rw [hpush]
    by_cases hlen : b.length = 5
    · obtain ⟨y, b', rfl⟩ : ∃ y b', b = y :: b' := by
        cases b with
        | nil => simp at hlen
        | cons y b' => exact ⟨y, b', rfl⟩
      have hb' : b'.length = 4 := by simpa using hlen
      have hpa : pushAngle (y :: b') x = b' ++ [x] := by
        simp [pushAngle, ANGLE_HISTORY_SIZE, hb']
      rw [hpa, ih (b' ++ [x]) (by simp [hb'])]
      have e1 : (b' ++ [x]) ++ xs = b' ++ x :: xs := by simp
      have e2 : (y :: b') ++ x :: xs = y :: (b' ++ x :: xs) := by simp
      rw [e1, e2]
      have ht : (b' ++ x :: xs).length = xs.length + 5 := by simp [hb']; omega
      rw [List.length_cons, ht]
      have e3 : xs.length + 5 + 1 - 5 = (xs.length + 5 - 5) + 1 := by omega
      rw [e3, List.drop_succ_cons]
    · have hlt : b.length < 5 := Nat.lt_of_le_of_ne hb hlen
      have hpa : pushAngle b x = b ++ [x] := by
        simp only [pushAngle, List.length_append, List.length_singleton]
        rw [if_neg (by simp [ANGLE_HISTORY_SIZE]; omega)]
      rw [hpa, ih (b ++ [x]) (by simp; omega)]
      simp

/-- C1: a processed frame increments `repCount` by exactly 1 when it is
a confirmed down-transition (the frame passes the visibility gate, the
smoothed angle exceeds `downThreshold`, and the incremented hold
counter reaches `holdFrames`) whose current stage is `up`; in every
other case `repCount` is unchanged — in particular a down confirmation
from stage `down` or `unset`, and every up confirmation, credit
nothing. -/
theorem repCount_increment_characterization
    (cfg : ExerciseConfig) (s : CounterState) (f : FrameInput) :
    (processFrame cfg s f).reps =
      if jointVisible f.a = true ∧ jointVisible f.b = true ∧ jointVisible f.c = true
          ∧ cfg.downThreshold < smoothedOf (pushAngle s.angleHistory f.rawAngle)
          ∧ cfg.holdFrames ≤ s.holdCount + 1
          ∧ s.stage = some Stage.up
      then s.reps + 1 else s.reps := by
  simp only [processFrame, processVisible, stepMachine]
  split_ifs <;> simp_all

/-- C3 (amended): when the smoothed angle lies strictly between
`upThreshold` and `downThreshold` in that order, the machine satisfies
neither crossing condition and only resets `holdCount`, leaving stage
and rep count untouched; but when the angle exceeds `downThreshold`
(which for an unordered profile such as shoulder press covers the whole
interval between the two thresholds) the down branch runs and the hold
counter accumulates instead. -/
theorem deadZone_requires_ordered_thresholds
    (cfg : ExerciseConfig) (s : CounterState) (history : List ℚ) (x : ℚ) :
    (cfg.upThreshold < x → x < cfg.downThreshold →
      stepMachine cfg s history x = { s with holdCount := 0, angleHistory := history })
    ∧ (cfg.downThreshold < x → s.holdCount + 1 < cfg.holdFrames →
      stepMachine cfg s history x
        = { s with holdCount := s.holdCount + 1, angleHistory := history }) := by
  constructor
  · intro hu hd
    unfold stepMachine
    rw [if_neg (lt_asymm hd), if_neg (lt_asymm hu)]
  · intro hd hh
    unfold stepMachine
    rw [if_pos hd, if_neg (by omega)]

/-- Witness for the dead-zone theorem: for the bicep profile the angle
100 lies strictly between 50 and 150 and resets the hold counter; for
the shoulder press profile the angle 120 lies strictly between the two
thresholds yet increments the hold counter via the down branch. -/
theorem deadZone_requires_ordered_thresholds_witness :
    stepMachine bicepCfg midState [100] 100
      = { midState with holdCount := 0, angleHistory := [100] }
    ∧ stepMachine (EXERCISES ExerciseKey.shoulderpress) initialState [120] 120
      = { initialState with holdCount := 1, angleHistory := [120] } :=
  ⟨(deadZone_requires_ordered_thresholds bicepCfg midState [100] 100).1
      (by norm_num [bicepCfg, EXERCISES]) (by norm_num [bicepCfg, EXERCISES]),
   (deadZone_requires_ordered_thresholds
        (EXERCISES ExerciseKey.shoulderpress) initialState [120] 120).2
      (by norm_num [EXERCISES]) (by norm_num [EXERCISES, initialState])⟩

/-- C3 counterexample: in the shoulder press profile
(`upThreshold = 160 > downThreshold = 90`), the smoothed angle 120 lies
strictly between the numerically smaller and larger thresholds, yet it
satisfies the down condition `> downThreshold` and increments
`holdCount` to 1 instead of resetting it to 0 as the claim states. -/
theorem deadZone_claim_counterexample :
    ((EXERCISES ExerciseKey.shoulderpress).downThreshold < 120
      ∧ (120 : ℚ) < (EXERCISES ExerciseKey.shoulderpress).upThreshold)
    ∧ (processFrame (EXERCISES ExerciseKey.shoulderpress) initialState
        (visFrame 120)).holdCount = 1 := by
  norm_num +decide [EXERCISES, processFrame, processVisible, stepMachine, pushAngle,
    smoothedOf, jointVisible, visFrame, initialState, ANGLE_HISTORY_SIZE]

/-- C4: a frame in which one of the three sampled joints is present
with effective confidence at most 0.5 bypasses the machine entirely:
`holdCount` is reset to 0 and stage, rep count and the smoothing window
are untouched (the raw angle is not pushed). -/
theorem lowConfidence_pauses_frame
    (cfg : ExerciseConfig) (s : CounterState) (f : FrameInput)
    (h : (∃ j, f.a = some j ∧ j.visibility.getD 1 ≤ 1 / 2)
      ∨ (∃ j, f.b = some j ∧ j.visibility.getD 1 ≤ 1 / 2)
      ∨ (∃ j, f.c = some j ∧ j.visibility.getD 1 ≤ 1 / 2)) :
    processFrame cfg s f = { s with holdCount := 0 } := by
  have hgate : (jointVisible f.a && jointVisible f.b && jointVisible f.c) = false := by
    rcases h with ⟨j, hj, hv⟩ | ⟨j, hj, hv⟩ | ⟨j, hj, hv⟩
    · have hja : jointVisible f.a = false := by
        rw [hj]
        simp only [jointVisible]
        exact decide_eq_false (not_lt.mpr hv)
      simp [hja]
    · have hjb : jointVisible f.b = false := by
        rw [hj]
        simp only [jointVisible]
        exact decide_eq_false (not_lt.mpr hv)
      simp [hjb]
    · have hjc : jointVisible f.c = false := by
        rw [hj]
        simp only [jointVisible]
        exact decide_eq_false (not_lt.mpr hv)
      simp [hjc]
  simp [processFrame, hgate]

/-- Witness for the low-confidence theorem: a frame whose pivot joint
has confidence 0.3, arriving mid-debounce during stage `up` with three
reps and seven hold frames, resets only the hold counter. -/
theorem lowConfidence_pauses_frame_witness :
    processFrame bicepCfg midState lowConfFrame = { midState with holdCount := 0 } :=
  lowConfidence_pauses_frame bicepCfg midState lowConfFrame
    (Or.inr (Or.inl ⟨⟨0, 0, some (3 / 10)⟩, rfl, by norm_num⟩))

/-- C10: a sampled joint present without a visibility value is given
confidence 1, so it passes the gate; a frame whose three sampled joints
are all present and either lack a visibility value or have confidence
above 0.5 is smoothed and counted exactly like a fully visible frame. -/
theorem missing_visibility_defaults_to_one
    (cfg : ExerciseConfig) (s : CounterState) (f : FrameInput) (j : Joint)
    (hj : j.visibility = none)
    (hall : ∀ g ∈ [f.a, f.b, f.c], ∃ jt, g = some jt
        ∧ (jt.visibility = none ∨ (1 : ℚ) / 2 < jt.visibility.getD 1)) :
    jointVisible (some j) = true
    ∧ processFrame cfg s f = processVisible cfg s f.rawAngle := by
  have hvisOf : ∀ jt : Joint,
      (jt.visibility = none ∨ (1 : ℚ) / 2 < jt.visibility.getD 1) →
      jointVisible (some jt) = true := by
    intro jt hcase
    rcases hcase with hnone | hconf
    · norm_num [jointVisible, hnone]
    · simp only [jointVisible, decide_eq_true_eq]
      exact hconf
  refine ⟨hvisOf j (Or.inl hj), ?_⟩
  have hvis : ∀ g ∈ [f.a, f.b, f.c], jointVisible g = true := by
    intro g hg
    obtain ⟨jt, rfl, hcase⟩ := hall g hg
    exact hvisOf jt hcase
  have hgate : (jointVisible f.a && jointVisible f.b && jointVisible f.c) = true := by
    simp [hvis f.a (by simp), hvis f.b (by simp), hvis f.c (by simp)]
  simp [processFrame, hgate]

/-- Witness for the missing-visibility theorem: a frame whose first
sampled joint has no visibility value and whose other joints have
confidence 1 passes the gate and is processed by the visible path. -/
theorem missing_visibility_defaults_to_one_witness :
    jointVisible (some noVisJoint) = true
    ∧ processFrame bicepCfg midState noVisFrame
      = processVisible bicepCfg midState noVisFrame.rawAngle :=
  missing_visibility_defaults_to_one bicepCfg midState noVisFrame noVisJoint rfl
    (by
      intro g hg
      simp only [noVisFrame, List.mem_cons, List.mem_singleton] at hg
      rcases hg with h | h | h
      · exact h ▸ ⟨noVisJoint, rfl, Or.inl rfl⟩
      · exact h ▸ ⟨⟨0, 0, some 1⟩, rfl, Or.inr (by norm_num)⟩
      · simp at h
        exact h ▸ ⟨⟨0, 0, some 1⟩, rfl, Or.inr (by norm_num)⟩)

set_option maxRecDepth 100000

/-- C2 counterexample: after twelve fully visible frames at angle 160
(stage confirmed `down`), feeding angle 40 for twelve consecutive
frames does NOT reach stage `up` as the claim states — the smoothing
window still drains the previous 160s, the first four smoothed values
fall in the dead zone, and only eight hold frames accumulate, so the
stage is still `down`. -/
theorem trace_counterexample_twelve_frames_insufficient :
    (runFrames bicepCfg c2State1 (List.replicate 12 (visFrame 40))).stage
      = some Stage.down
    ∧ (runFrames bicepCfg c2State1 (List.replicate 12 (visFrame 40))).stage
      ≠ some Stage.up := by
  norm_num +decide [c2State1, runFrames, processFrame, processVisible, stepMachine,
    pushAngle, smoothedOf, jointVisible, visFrame, EXERCISES, bicepCfg, initialState,
    ANGLE_HISTORY_SIZE, List.replicate, List.foldl]

/-- C2 (amended): from the initial state with the bicep profile,
twelve frames at 160 confirm stage `down` with zero reps; because the
smoothing window still holds five 160s, sixteen frames at 40 (four to
flush the window through the dead zone plus twelve debounce frames)
are then needed to confirm stage `up`, still zero reps; sixteen more
frames at 160 then confirm stage `down` and credit exactly one rep. -/
theorem trace_up_down_cycle_amended :
    (c2State1.stage = some Stage.down ∧ c2State1.reps = 0)
    ∧ (c2State2.stage = some Stage.up ∧ c2State2.reps = 0)
    ∧ (c2State3.stage = some Stage.down ∧ c2State3.reps = 1) := by
  norm_num +decide [c2State1, c2State2, c2State3, runFrames, processFrame,
    processVisible, stepMachine, pushAngle, smoothedOf, jointVisible, visFrame,
    EXERCISES, bicepCfg, initialState, ANGLE_HISTORY_SIZE, List.replicate, List.foldl]

/-- C5: feeding eleven frames at 160 and then one dead-zone frame at
100 leaves the stage unchanged (still unset) and resets `holdCount` to
0; from there, any run of fewer than twelve frames — in particular any
partial fresh run at 160 — cannot change the stage or credit a rep, so
a full fresh run of twelve qualifying frames is required before the
down-transition can be confirmed. -/
theorem fresh_run_required_after_reset (fs : List FrameInput) (h : fs.length < 12) :
    (c5State.stage = none ∧ c5State.holdCount = 0)
    ∧ (runFrames bicepCfg c5State fs).stage = none
    ∧ (runFrames bicepCfg c5State fs).reps = 0 := by
  have hstate : c5State.stage = none ∧ c5State.reps = 0 ∧ c5State.holdCount = 0 := by
    norm_num +decide [c5State, c5Frames, runFrames, processFrame, processVisible,
      stepMachine, pushAngle, smoothedOf, jointVisible, visFrame, EXERCISES, bicepCfg,
      initialState, ANGLE_HISTORY_SIZE, List.replicate, List.foldl]
  have h12 : bicepCfg.holdFrames = 12 := by norm_num [bicepCfg, EXERCISES]
  have hfold := runFrames_of_hold_lt bicepCfg fs c5State (by
    rw [hstate.2.2, h12]
    omega)
  exact ⟨⟨hstate.1, hstate.2.2⟩, hfold.1.trans hstate.1, hfold.2.1.trans hstate.2.1⟩

/-- Witness for the partial-run theorem, at the empty follow-up run. -/
theorem fresh_run_required_after_reset_witness :
    (c5State.stage = none ∧ c5State.holdCount = 0)
    ∧ (runFrames bicepCfg c5State []).stage = none
    ∧ (runFrames bicepCfg c5State []).reps = 0 :=
  fresh_run_required_after_reset [] (by norm_num)

/-- C6: the smoother keeps a FIFO of at most five raw values — after
pushing any list of values into an empty buffer, the buffer holds
exactly the last five (all of them when five or fewer were pushed) —
and the returned smoothed value is the arithmetic mean of the current
buffer contents; pushing 10, 20, 30, 40, 50, 60 yields 40, the mean of
the last five values. -/
theorem smoother_keeps_last_five (xs : List ℚ) :
    smootherBuffer xs = xs.drop (xs.length - ANGLE_HISTORY_SIZE)
    ∧ smoothedOf (smootherBuffer xs)
      = (xs.drop (xs.length - ANGLE_HISTORY_SIZE)).foldl (· + ·) 0
          / ((min xs.length ANGLE_HISTORY_SIZE : ℕ) : ℚ)
    ∧ smoothedOf (smootherBuffer [10, 20, 30, 40, 50, 60]) = 40 := by
  have hbuf : smootherBuffer xs = xs.drop (xs.length - ANGLE_HISTORY_SIZE) := by
    have := foldl_pushAngle_drop xs [] (by simp)
    simpa [smootherBuffer, ANGLE_HISTORY_SIZE] using this
  refine ⟨hbuf, ?_, ?_⟩
  · rw [hbuf]
    unfold smoothedOf
    have hlen : (xs.drop (xs.length - ANGLE_HISTORY_SIZE)).length
        = min xs.length ANGLE_HISTORY_SIZE := by
      rw [List.length_drop]
      simp [ANGLE_HISTORY_SIZE]
      omega
    rw [hlen]
  · norm_num [smootherBuffer, pushAngle, smoothedOf, ANGLE_HISTORY_SIZE, List.foldl]

/-- C7: a reset (also invoked on every switch to a different exercise)
appends exactly one session record carrying the exercise identifier and
the accumulated rep count when and only when the rep count is positive
— zero-rep sessions are never emitted — and always restores the counter
to its initial state: stage unset, zero reps, zero hold frames, empty
smoothing window. -/
theorem reset_emits_session_iff_positive (sessions : List WorkoutSession)
    (date : String) (exercise : ExerciseKey) (s : CounterState) :
    ((resetCounters sessions date exercise s).1 =
      if 0 < s.reps
      then sessions ++ [{ date := date, exercise := exercise, reps := s.reps }]
      else sessions)
    ∧ ((resetCounters sessions date exercise s).1.length
      = sessions.length + if 0 < s.reps then 1 else 0)
    ∧ (resetCounters sessions date exercise s).2 = initialState := by
  unfold resetCounters saveSession
  rcases Nat.eq_zero_or_pos s.reps with h | h
  · simp [h]
  · have h0 : s.reps ≠ 0 := Nat.pos_iff_ne_zero.mp h
    simp [h, h0]

/-- Auxiliary: the loop of lines 199-204 returns the first matching
message of a rule list whose prefix is all non-matching. -/
theorem evalFormLoop_first (lm : List Joint) (check : FormCheck)
    (post : List FormCheck) :
    ∀ pre : List FormCheck, (∀ c ∈ pre, c.condition lm = false) →
      check.condition lm = true →
      evalFormLoop lm (pre ++ check :: post) = check.message := by
  intro pre
  induction pre with
  | nil =>
    intro _ hhit
    simp [evalFormLoop, hhit]
  | cons c cs ih =>
    intro hpre hhit
    have hc : c.condition lm = false := hpre c (by simp)
    simp only [List.cons_append, evalFormLoop, hc]
    simp only [Bool.false_eq_true, if_false]
    exact ih (fun d hd => hpre d (by simp [hd])) hhit

/-- Auxiliary: the loop returns the empty alert when no rule matches. -/
theorem evalFormLoop_none (lm : List Joint) :
    ∀ l : List FormCheck, (∀ c ∈ l, c.condition lm = false) →
      evalFormLoop lm l = "" := by
  intro l
  induction l with
  | nil =>
    intro _
    rfl
  | cons c cs ih =>
    intro hall
    have hc : c.condition lm = false := hall c (by simp)
    simp only [evalFormLoop, hc]
    simp only [Bool.false_eq_true, if_false]
    exact ih (fun d hd => hall d (by simp [hd]))

/-- C8: the form evaluator returns the message of the first rule in
declared order whose predicate holds on the full joint set — later
rules, matching or not, are not reported — and the empty value when no
predicate holds; and the alert emitted by a frame of `runLoop` is the
evaluation on the full landmark list, independent of the counter state
and of the raw angle (hence of the three-joint visibility gate). -/
theorem formEvaluator_first_match (lm : List Joint)
    (pre post all : List FormCheck) (check : FormCheck)
    (cfg : ExerciseConfig) (checks : Option (List FormCheck))
    (s₁ s₂ : CounterState) (r₁ r₂ : ℚ)
    (hpre : ∀ c ∈ pre, c.condition lm = false)
    (hhit : check.condition lm = true)
    (hall : ∀ c ∈ all, c.condition lm = false) :
    evalFormChecks (some (pre ++ check :: post)) lm = check.message
    ∧ evalFormChecks (some all) lm = ""
    ∧ (runLoopFrame cfg checks s₁ lm r₁).2 = (runLoopFrame cfg checks s₂ lm r₂).2 :=
  ⟨evalFormLoop_first lm check post pre hpre hhit,
   evalFormLoop_none lm all hall,
   rfl⟩

/-- Witness for the form-evaluator theorem: with rules
[never-fires, always-fires "m2", always-fires "m3"] the alert is "m2";
with only the never-firing rule the alert is empty; and two frames
differing in counter state and raw angle produce the same alert. -/
theorem formEvaluator_first_match_witness :
    evalFormChecks (some ([ruleOff] ++ ruleHit :: [ruleLate])) [] = "m2"
    ∧ evalFormChecks (some [ruleOff]) [] = ""
    ∧ (runLoopFrame bicepCfg (some [ruleOff, ruleHit]) initialState [] 0).2
      = (runLoopFrame bicepCfg (some [ruleOff, ruleHit]) midState [] 90).2 :=
  formEvaluator_first_match [] [ruleOff] [ruleLate] [ruleOff] ruleHit
    bicepCfg (some [ruleOff, ruleHit]) initialState midState 0 90
    (by intro c hc; simp at hc; subst hc; rfl)
    rfl
    (by intro c hc; simp at hc; subst hc; rfl)

/-- C9: the angle function — the absolute difference of the two
`atan2` values in degrees, folded by `360 - angle` when above 180 —
always returns a value in the closed interval [0, 180], and returns 0
when the two outer points coincide. -/
theorem calculateAngle_range_and_degenerate (a b c : Pt) :
    (0 ≤ calculateAngle a b c ∧ calculateAngle a b c ≤ 180)
    ∧ calculateAngle a b a = 0 := by
  have hpi : (0 : ℝ) < Real.pi := Real.pi_pos
  constructor
  · simp only [calculateAngle]
    set u := atan2 (c.y - b.y) (c.x - b.x) with hu
    set v := atan2 (a.y - b.y) (a.x - b.x) with hv
    have h1 : -Real.pi < u := Complex.neg_pi_lt_arg _
    have h2 : u ≤ Real.pi := Complex.arg_le_pi _
    have h3 : -Real.pi < v := Complex.neg_pi_lt_arg _
    have h4 : v ≤ Real.pi := Complex.arg_le_pi _
    have habs : |(u - v) * 180 / Real.pi| < 360 := by
      rw [abs_div, abs_of_pos hpi, abs_mul]
      have h180 : |(180 : ℝ)| = 180 := by norm_num
      rw [h180, div_lt_iff₀ hpi]
      have huv : |u - v| < 2 * Real.pi := by
        rw [abs_lt]
        constructor <;> linarith
      nlinarith
    split_ifs with hgt
    · constructor <;> linarith
    · exact ⟨abs_nonneg _, not_lt.mp hgt⟩
  · simp only [calculateAngle, sub_self, zero_mul, zero_div, abs_zero]
    norm_num

end RepCounter
